import Mathlib

/-!
Verification of the ZVision detection system (multi-camera person-presence and
directional-flow analytics) against its natural-language specification.

The Python source is embedded shallowly:

* Python strings are `List Char` (`Str`); the kernel can evaluate all string
  operations used here.
* Python floats are embedded as exact rationals (`ℚ`), with explicit NaN
  and infinity markers (`PyFloat`) where `float()` produces them: the
  specification describes the arithmetic over the real numbers, and every
  comparison the code performs on a square root `sqrt e < t` (with both
  sides nonnegative and finite) is embedded as the exactly equivalent
  rational comparison `e < t^2`; comparisons against NaN or an infinite
  magnitude are resolved by IEEE semantics (False, respectively by sign)
  where they occur.  Theorems below restate and prove the original
  `Real.sqrt` formulations, so the equivalence between the squared rational
  forms used in the computable definitions and the source's `**0.5`
  formulas is itself verified.
* SQLite tables are total maps from primary key to an optional row; a
  statement that references a nonexistent column raises, which is embedded as
  returning the error result the surrounding `except` block produces.
-/

namespace ZV

/-- Characters of a Python string.  All string manipulation is done on the
character list so that every operation is kernel-computable. -/
abbrev Str := List Char

/-- A 2-D point or vector with exact rational coordinates, standing for the
pair of Python floats used by the detection code. -/
abbrev Vec := ℚ × ℚ

/-- Squared Euclidean magnitude of a vector: the `movement_x**2 + movement_y**2`
subexpression of `DetectionManager._calculate_movement_vector`
(src/managers/detection_manager.py line 611). -/
def magSq (v : Vec) : ℚ := v.1 ^ 2 + v.2 ^ 2

/-- Direction label committed for a track: the strings `'entry'` / `'exit'`
used throughout `DetectionManager`. -/
inductive Dir where
  | entry
  | exit
deriving DecidableEq

/- ## String utilities (Python `str.split`, `str.strip`, `float(...)`) -/

/-- Python `s.split(sep)` for a one-character separator: splits on every
occurrence and keeps empty pieces, so the result always has
`(number of separators) + 1` entries. -/
def splitOnChar (sep : Char) : Str → List Str
  | [] => [[]]
  | c :: rest =>
    match splitOnChar sep rest with
    | [] => [[]]
    | h :: t => if c = sep then [] :: h :: t else (c :: h) :: t

/-- Whitespace recognized by Python `str.strip()` (the characters that can
occur around a numeric literal accepted by `float`). -/
def isSpaceChar (c : Char) : Bool := c = ' ' ∨ c = '\t' ∨ c = '\n' ∨ c = '\r'

/-- Python `s.strip()`: drop leading and trailing whitespace. -/
def stripWs (s : Str) : Str :=
  ((s.dropWhile isSpaceChar).reverse.dropWhile isSpaceChar).reverse

/-- Numeric value of a digit character. -/
def digitVal (c : Char) : ℕ := c.toNat - ('0').toNat

/-- Value of a digit string read in base 10. -/
def digitsVal (s : Str) : ℕ := s.foldl (fun acc c => 10 * acc + digitVal c) 0

/-- Result of Python `float(s)`: a finite value (idealized as the exact
rational the literal denotes), an infinity, or NaN.  Finite-precision
effects — rounding, and overflow of astronomically large finite literals to
infinity — are outside this exact-real idealization. -/
inductive PyFloat where
  | val (q : ℚ)
  | inf (neg : Bool)
  | nan
deriving DecidableEq

/-- Validity of underscores in a Python numeric literal: every underscore
must sit between two digits (PEP 515), tracked with one character of
lookbehind. -/
def underscoresOkAux (prev : Option Char) : Str → Bool
  | [] => true
  | c :: rest =>
    if c = '_' then
      (match prev with
       | some p => p.isDigit
       | none => false) &&
      (match rest with
       | d :: _ => d.isDigit
       | [] => false) &&
      underscoresOkAux (some c) rest
    else underscoresOkAux (some c) rest

/-- Whether every underscore in the string sits between two digits. -/
def underscoresOk (s : Str) : Bool := underscoresOkAux none s

/-- The unsigned decimal-literal part of Python `float(s)` (underscores
already removed): integer and/or fractional digits with an optional
exponent; `none` when no such literal is present. -/
def pyDecimalQ (s : Str) : Option ℚ :=
  let ipart := s.takeWhile Char.isDigit
  let rest1 := s.dropWhile Char.isDigit
  let fracRest : Str × Str :=
    match rest1 with
    | '.' :: r => (r.takeWhile Char.isDigit, r.dropWhile Char.isDigit)
    | _ => ([], rest1)
  if ipart = [] ∧ fracRest.1 = [] then none
  else
    let mant : ℚ := (digitsVal ipart : ℚ) + (digitsVal fracRest.1 : ℚ) / 10 ^ fracRest.1.length
    match fracRest.2 with
    | [] => some mant
    | e :: r =>
      if e = 'e' ∨ e = 'E' then
        let esgnRest : ℤ × Str :=
          match r with
          | '+' :: r2 => (1, r2)
          | '-' :: r2 => (-1, r2)
          | _ => (1, r)
        let edig := esgnRest.2.takeWhile Char.isDigit
        if edig = [] ∨ esgnRest.2.dropWhile Char.isDigit ≠ [] then none
        else some (mant * (10 : ℚ) ^ (esgnRest.1 * (digitsVal edig : ℤ)))
      else none

/-- Python `float(s)`: optional whitespace and sign, then — case
insensitively — `inf`/`infinity`, `nan`, or a decimal literal whose
underscores must sit between digits.  Returns `none` exactly when `float`
raises `ValueError`.  (Non-ASCII digits and non-ASCII whitespace are
outside this embedding; they cannot arise in the configuration strings the
claims concern.) -/
def pyFloatParse (s : Str) : Option PyFloat :=
  let t := stripWs s
  let negRest : Bool × Str :=
    match t with
    | '+' :: r => (false, r)
    | '-' :: r => (true, r)
    | _ => (false, t)
  let low := negRest.2.map Char.toLower
  if low = ("inf").data ∨ low = ("infinity").data then some (PyFloat.inf negRest.1)
  else if low = ("nan").data then some PyFloat.nan
  else if underscoresOk negRest.2 = false then none
  else
    match pyDecimalQ (negRest.2.filter (fun c => c ≠ '_')) with
    | some q => some (PyFloat.val (if negRest.1 then -q else q))
    | none => none

/-- The `x, y = map(float, direction.split(','))` pattern used in both
`DetectionManager.set_entry_direction` and `DetectionManager._determine_direction`:
succeeds only when the string has exactly one comma and both pieces parse as
floats; any other shape raises and is caught by the caller. -/
def pyParseVector (s : Str) : Option (PyFloat × PyFloat) :=
  match splitOnChar ',' s with
  | [sx, sy] =>
    match pyFloatParse sx, pyFloatParse sy with
    | some x, some y => some (x, y)
    | _, _ => none
  | _ => none

/- ## DetectionManager: movement vector and direction classification -/

/-- The start/end averaging of `DetectionManager._calculate_movement_vector`
(src/managers/detection_manager.py lines 596-608): with
`first_third = max(1, len(positions) // 3)`, average the first and the last
`first_third` positions and subtract.  Divisions are by `len(start_points)` /
`len(end_points)` exactly as in the source. -/
def movementDelta (positions : List Vec) : Vec :=
  let firstThird := max 1 (positions.length / 3)
  let startPoints := positions.take firstThird
  let endPoints := positions.drop (positions.length - firstThird)
  let startXAvg := (startPoints.map Prod.fst).sum / (startPoints.length : ℚ)
  let startYAvg := (startPoints.map Prod.snd).sum / (startPoints.length : ℚ)
  let endXAvg := (endPoints.map Prod.fst).sum / (endPoints.length : ℚ)
  let endYAvg := (endPoints.map Prod.snd).sum / (endPoints.length : ℚ)
  (endXAvg - startXAvg, endYAvg - startYAvg)

/-- Shallow embedding of `DetectionManager._calculate_movement_vector`
(src/managers/detection_manager.py lines 582-622).  The source computes
`magnitude = (mx**2 + my**2)**0.5` and returns `None` when `magnitude < 2.0`;
since both sides are nonnegative this is exactly `mx^2 + my^2 < 4`, the form
used here.  The source then divides the vector by `magnitude` (the
`magnitude > 1e-6` guard always holds because `magnitude >= 2`); this
embedding returns the unnormalized difference and the normalization is
accounted for, exactly, inside `classifyDot` below.  The theorems for C5/C7
prove the equivalence with the original square-root formulation. -/
def _calculate_movement_vector (positions : List Vec) : Option Vec :=
  if positions.length < 3 then none
  else
    let m := movementDelta positions
    if magSq m < 4 then none
    else some m

/-- Dot-product thresholding of `DetectionManager._determine_direction`
(src/managers/detection_manager.py lines 663-685), taking the movement
vector `v` unnormalized (see `_calculate_movement_vector`) and the parsed
direction vector `a` before its normalization.  The source normalizes `a`
only when `sqrt (magSq a) > 1e-6`, i.e. exactly when `10^12 * magSq a > 1`,
and then compares `d = v̂ · â` against `threshold = 0.2`.  Over the reals,
with `q = v · a`:
`d > 1/5  ↔  5 q > ‖v‖ ‖a‖  ↔  q > 0 ∧ 25 q² > magSq v * magSq a`, and
symmetrically for `d < -1/5`; when `a` is left unnormalized the `magSq a`
factor is dropped.  The C6 theorem proves this equivalence against the
`Real.sqrt` formulation. -/
def classifyDot (v a : Vec) : Option Dir :=
  let q := v.1 * a.1 + v.2 * a.2
  if 1 < 10 ^ 12 * magSq a then
    if 0 < q ∧ magSq v * magSq a < 25 * q ^ 2 then some Dir.entry
    else if q < 0 ∧ magSq v * magSq a < 25 * q ^ 2 then some Dir.exit
    else none
  else
    if 0 < q ∧ magSq v < 25 * q ^ 2 then some Dir.entry
    else if q < 0 ∧ magSq v < 25 * q ^ 2 then some Dir.exit
    else none

/-- A Python value as stored in the in-memory `roi_settings` dictionaries:
either a number, a string, or `None`. -/
inductive PyVal where
  | num (q : ℚ)
  | str (s : Str)
  | pynone
deriving DecidableEq

/-- One entry of `DetectionManager.roi_settings`: optional `"coords"` and
`"entry_direction"` keys (either key may be absent, e.g.
`set_entry_direction` creates an entry holding only the direction). -/
structure MemRoi where
  coords : Option (PyVal × PyVal × PyVal × PyVal)
  entry_direction : Option Str
deriving DecidableEq

/-- Parsing of the entry-direction descriptor inside
`DetectionManager._determine_direction` (src/managers/detection_manager.py
lines 644-662): a string containing a comma is parsed as a free vector;
otherwise the symbolic codes map to fixed vectors with unknown codes
defaulting to `(1, 0)`.  `none` covers the two source behaviors that make
the whole classification return `None`: a raising parse (caught by the
enclosing `except`), and a parsed vector with a NaN or infinite component —
NaN propagates through the magnitude, normalization and dot product and
every subsequent threshold comparison is False, while an infinite component
normalizes to a NaN/zero vector with the same outcome. -/
def parseDirVec (direction : Str) : Option Vec :=
  if direction.contains ',' then
    match pyParseVector direction with
    | some (PyFloat.val x, PyFloat.val y) => some (x, y)
    | _ => none
  else
    some (if direction = ("LTR").data then (1, 0)
      else if direction = ("RTL").data then (-1, 0)
      else if direction = ("BTT").data then (0, -1)
      else if direction = ("TTB").data then (0, 1)
      else if direction = ("BLTR").data then (1, -1)
      else if direction = ("BRTL").data then (-1, -1)
      else if direction = ("TLBR").data then (1, 1)
      else if direction = ("TRBL").data then (-1, 1)
      else (1, 0))

/-- Shallow embedding of `DetectionManager._determine_direction`
(src/managers/detection_manager.py lines 624-691): `None` when the movement
vector is `None` or the camera has no `roi_settings` entry; otherwise parse
the `entry_direction` value (dictionary default `"1,0"`) and threshold the
dot product via `classifyDot`. -/
def _determine_direction (roiSettings : Str → Option MemRoi) (camera_id : Str)
    (movementVector : Option Vec) : Option Dir :=
  match movementVector with
  | none => none
  | some v =>
    match roiSettings camera_id with
    | none => none
    | some st =>
      match parseDirVec (st.entry_direction.getD (("1,0").data)) with
      | none => none
      | some a => classifyDot v a

/-- Movement delta as the specification words it (spec §4.3 step 4):
`k = max(1, floor(N/3))`, `S` and `E` the averages of the first and the last
`k` positions (divisions by `k` itself), result `E − S`.  Stated from the
spec's formulas for comparison with `movementDelta`, which divides by the
lengths of the two slices as the source does. -/
def specMovementDelta (positions : List Vec) : Vec :=
  let k := max 1 (positions.length / 3)
  let S : Vec := (((positions.take k).map Prod.fst).sum / (k : ℚ),
                  ((positions.take k).map Prod.snd).sum / (k : ℚ))
  let E : Vec := (((positions.drop (positions.length - k)).map Prod.fst).sum / (k : ℚ),
                  ((positions.drop (positions.length - k)).map Prod.snd).sum / (k : ℚ))
  (E.1 - S.1, E.2 - S.2)

/- ## DetectionManager: per-track state machine -/

/-- An ROI rectangle in frame coordinates, as passed to
`DetectionManager._update_track_state`. -/
structure Rect where
  x1 : ℚ
  y1 : ℚ
  x2 : ℚ
  y2 : ℚ
deriving DecidableEq

/-- Whether a centroid lies in the ROI: the
`(roi_x1 <= center_x <= roi_x2) and (roi_y1 <= center_y <= roi_y2)` test of
`_update_track_state` (src/managers/detection_manager.py line 491). -/
def inRoi (roi : Rect) (c : Vec) : Bool :=
  decide (roi.x1 ≤ c.1 ∧ c.1 ≤ roi.x2 ∧ roi.y1 ≤ c.2 ∧ c.2 ≤ roi.y2)

/-- The per-track dictionary of `DetectionManager.track_states`
(src/managers/detection_manager.py lines 496-507).  The timestamps and the
snapshot path are omitted: they never influence whether an entry/exit event
row is written, which is what the claims about this structure concern. -/
structure TrackInfo where
  positions : List Vec
  direction_computed : Bool
  movement_direction : Option Dir
  in_roi : Bool
  roi_status_changed : Bool
  direction_logged : Bool
deriving DecidableEq

/-- Which branch of `_update_track_state` produced an event row: the
ROI-boundary-crossing branch or the movement-vector classification branch. -/
inductive EvSrc where
  | boundary
  | movement
deriving DecidableEq

/-- One entry/exit `DetectionEvent` row written through
`_log_direction_event` (src/managers/detection_manager.py lines 693-731;
the database write happens for every `entry`/`exit` event type), tagged
with the branch of `_update_track_state` that produced it. -/
structure Ev where
  src : EvSrc
  dir : Dir
deriving DecidableEq

/-- Python `deque(maxlen=10).append`: the bounded position history. -/
def pushPos (l : List Vec) (c : Vec) : List Vec :=
  (l ++ [c]).drop (l.length + 1 - 10)

/-- Track birth in `_update_track_state` (src/managers/detection_manager.py
lines 494-525): fresh state, first position appended, no event row written
(`detection_start` is only emitted over the notification port, never stored). -/
def newTrackState (roi : Rect) (c : Vec) : TrackInfo :=
  { positions := [c]
    direction_computed := false
    movement_direction := none
    in_roi := inRoi roi c
    roi_status_changed := false
    direction_logged := false }

/-- The ROI-boundary-crossing phase of `_update_track_state`
(src/managers/detection_manager.py lines 530-549): when the in-ROI flag
flips, log an entry/exit row unless a row with the same label is already
committed, and mark `roi_status_changed`. -/
def boundaryPhase (in_roi : Bool) (t : TrackInfo) : TrackInfo × List Ev :=
  if in_roi ≠ t.in_roi then
    if in_roi then
      if t.direction_logged = false ∨ t.movement_direction ≠ some Dir.entry then
        ({ t with direction_logged := true
                  movement_direction := some Dir.entry
                  roi_status_changed := true },
         [⟨EvSrc.boundary, Dir.entry⟩])
      else ({ t with roi_status_changed := true }, [])
    else
      if t.direction_logged = false ∨ t.movement_direction ≠ some Dir.exit then
        ({ t with direction_logged := true
                  movement_direction := some Dir.exit
                  roi_status_changed := true },
         [⟨EvSrc.boundary, Dir.exit⟩])
      else ({ t with roi_status_changed := true }, [])
  else (t, [])

/-- The movement-vector classification phase of `_update_track_state`
(src/managers/detection_manager.py lines 554-574): when the history is long
enough and no direction has been logged, or an ROI crossing just happened,
compute the movement vector and classify; a first classification is logged
and latches `direction_logged`. -/
def movementPhase (roiSettings : Str → Option MemRoi) (camera_id : Str)
    (t2 : TrackInfo) : TrackInfo × List Ev :=
  if (3 ≤ t2.positions.length ∧ t2.direction_logged = false)
      ∨ t2.roi_status_changed = true then
    match _calculate_movement_vector t2.positions with
    | some mv =>
      match _determine_direction roiSettings camera_id (some mv) with
      | some d =>
        if t2.direction_logged = false then
          ({ t2 with direction_computed := true
                     movement_direction := some d
                     direction_logged := true
                     roi_status_changed := false },
           [⟨EvSrc.movement, d⟩])
        else (t2, [])
      | none => (t2, [])
    | none => (t2, [])
  else (t2, [])

/-- Shallow embedding of the existing-track branch of
`DetectionManager._update_track_state` (src/managers/detection_manager.py
lines 526-580): the ROI-boundary phase first, then the position append, then
the movement-vector classification phase, then the final field updates.
Returns the updated track and the entry/exit event rows written during the
call, in order. -/
def _update_track_state (roiSettings : Str → Option MemRoi) (camera_id : Str)
    (roi : Rect) (c : Vec) (t : TrackInfo) : TrackInfo × List Ev :=
  let in_roi := inRoi roi c
  let afterBoundary := boundaryPhase in_roi t
  let t2 := { afterBoundary.1 with positions := pushPos afterBoundary.1.positions c }
  let afterMovement := movementPhase roiSettings camera_id t2
  ({ afterMovement.1 with in_roi := in_roi }, afterBoundary.2 ++ afterMovement.2)

/-- A whole track lifetime on one camera: birth at the first sighting (with
its ROI rectangle), then one `_update_track_state` call per later sighting,
accumulating every entry/exit event row written for this track. -/
def runTrack (roiSettings : Str → Option MemRoi) (camera_id : Str)
    (first : Vec × Rect) (updates : List (Vec × Rect)) : TrackInfo × List Ev :=
  updates.foldl
    (fun acc u =>
      let r := _update_track_state roiSettings camera_id u.2 u.1 acc.1
      (r.1, acc.2 ++ r.2))
    (newTrackState first.2 first.1, [])

/-- Invariant tying a track's state to the event rows already written for
it: the `direction_logged` latch is set exactly when some row exists, the
committed `movement_direction` is the label of the last row, consecutive
row labels differ, and every row after the first comes from the boundary
branch. -/
def EvInv (t : TrackInfo) (evs : List Ev) : Prop :=
  (t.direction_logged = true ↔ evs ≠ []) ∧
  (∀ e, evs.getLast? = some e → t.movement_direction = some e.dir) ∧
  List.Chain' (fun a b => a.dir ≠ b.dir) evs ∧
  (∀ e ∈ evs.drop 1, e.src = EvSrc.boundary)

/- ## DatabaseManager: schema, camera configuration, ROI persistence -/

/-- A row of the `camera_config` table as created by
`DatabaseManager._init_database` (src/managers/database_manager.py lines
115-125): the ROI corner columns and the entry-direction string.  SQLite is
dynamically typed, so the coordinate columns can hold any Python value. -/
structure CfgRow where
  roi_x1 : PyVal
  roi_y1 : PyVal
  roi_x2 : PyVal
  roi_y2 : PyVal
  entry_direction : Str
deriving DecidableEq

/-- A row of the `cameras` table (src/managers/database_manager.py lines
128-141), restricted to the columns `add_camera` writes. -/
structure CamRow where
  source : Str
  name : Str
  width : ℚ
  height : ℚ
  fps : ℚ
deriving DecidableEq

/-- The SQLite database state: both tables keyed by `camera_id`. -/
structure DbState where
  cameras : Str → Option CamRow
  camera_config : Str → Option CfgRow

/-- Column set of `camera_config` per `_init_database`. -/
def cameraConfigColumns : List Str :=
  [("camera_id").data, ("roi_x1").data, ("roi_y1").data, ("roi_x2").data,
   ("roi_y2").data, ("entry_direction").data]

/-- Column set of `cameras` per `_init_database`. -/
def camerasColumns : List Str :=
  [("camera_id").data, ("source").data, ("name").data, ("width").data,
   ("height").data, ("fps").data, ("enabled").data, ("created_at").data,
   ("updated_at").data]

/-- Whether every column referenced by a statement exists in the table's
schema; referencing a missing column makes SQLite raise `OperationalError`. -/
def colsExist (cols schema : List Str) : Bool :=
  cols.all (fun c => schema.contains c)

/-- Shallow embedding of `DatabaseManager.add_camera`
(src/managers/database_manager.py lines 662-717).  Each `cursor.execute` is
modelled by checking the columns it references against the schema built by
`_init_database`; a missing column raises, the enclosing `except` returns
`False`, and because `conn.commit()` is never reached the uncommitted
statements are rolled back when the connection closes, leaving the database
unchanged.  The successful branches (unreachable against this schema, as
proved for C4) carry the pending `cameras` write; the hypothetical
`camera_config` write is not modelled because the statement can never
succeed against this schema. -/
def add_camera (db : DbState) (camera_id source name : Str)
    (width height fps : ℚ) : Bool × DbState :=
  if colsExist
      [("camera_id").data, ("source").data, ("name").data, ("width").data,
       ("height").data, ("fps").data, ("updated_at").data] camerasColumns = false
    then (false, db)
  else
    let pending : DbState :=
      { db with cameras := fun k =>
          if k = camera_id then some ⟨source, name, width, height, fps⟩
          else db.cameras k }
    if colsExist [("camera_id").data] cameraConfigColumns = false then (false, db)
    else
      match db.camera_config camera_id with
      | some _ =>
        if colsExist
            [("source").data, ("name").data, ("width").data, ("height").data,
             ("fps").data] cameraConfigColumns = false
          then (false, db)
        else (true, pending)
      | none =>
        if colsExist
            [("camera_id").data, ("source").data, ("name").data, ("width").data,
             ("height").data, ("fps").data, ("enabled").data]
            cameraConfigColumns = false
          then (false, db)
        else (true, pending)

/-- Shallow embedding of `DatabaseManager.save_camera_roi`
(src/managers/database_manager.py lines 557-587): an `INSERT OR REPLACE` of
the `camera_config` row keyed by `camera_id`. -/
def save_camera_roi (db : DbState) (camera_id : Str)
    (roi : PyVal × PyVal × PyVal × PyVal) (entry_dir : Str) : DbState :=
  { db with camera_config := fun k =>
      if k = camera_id then some ⟨roi.1, roi.2.1, roi.2.2.1, roi.2.2.2, entry_dir⟩
      else db.camera_config k }

/-- The dictionary `get_camera_roi` returns: the `"coords"` value is itself
a dict literal `x1 / y1 / x2 / y2`, and a Python dict iterates in insertion
order, which the association list records. -/
structure RoiDataPy where
  coords : List (Str × PyVal)
  entry_direction : Str
deriving DecidableEq

/-- Shallow embedding of `DatabaseManager.get_camera_roi`
(src/managers/database_manager.py lines 589-621). -/
def get_camera_roi (db : DbState) (camera_id : Str) : Option RoiDataPy :=
  match db.camera_config camera_id with
  | none => none
  | some r =>
    some ⟨[(("x1").data, r.roi_x1), (("y1").data, r.roi_y1),
           (("x2").data, r.roi_x2), (("y2").data, r.roi_y2)],
          r.entry_direction⟩

/-- Python `float(value)` on a stored value: numbers convert, strings go
through `float(str)`, `None` raises `TypeError` (no value). -/
def pyFloatOfVal : PyVal → Option PyFloat
  | PyVal.num q => some (PyFloat.val q)
  | PyVal.str s => pyFloatParse s
  | PyVal.pynone => none

/-- Shallow embedding of `DetectionManager._load_roi_settings`
(src/managers/detection_manager.py lines 960-988) for a single camera.
The source runs `x1, y1, x2, y2 = roi_data.get('coords', (None,)*4)`:
tuple-unpacking the coords DICTIONARY iterates it, and iterating a Python
dict yields its KEYS (here the strings x1, y1, x2, y2 in insertion order),
so the unpacked values are the four key names.  Key names are never `None`,
so whenever the entry direction is truthy the key-name strings are stored
as the camera's in-memory coordinates. -/
def _load_roi_settings (db : DbState) (camera_id : Str) : Option MemRoi :=
  match get_camera_roi db camera_id with
  | none => none
  | some roi_data =>
    match roi_data.coords.map (fun kv => PyVal.str kv.1) with
    | [x1, y1, x2, y2] =>
      if (x1 ≠ PyVal.pynone ∧ y1 ≠ PyVal.pynone ∧ x2 ≠ PyVal.pynone ∧ y2 ≠ PyVal.pynone)
          ∧ roi_data.entry_direction ≠ [] then
        some ⟨some (x1, y1, x2, y2), some roi_data.entry_direction⟩
      else none
    | _ => none

/- ## DetectionManager.set_entry_direction -/

/-- The ten symbolic entry-direction codes accepted by
`DetectionManager.set_entry_direction` (src/managers/detection_manager.py
lines 1055-1062). -/
def validDirections : List Str :=
  [("LTR").data, ("RTL").data, ("BTT").data, ("TTB").data, ("BLTR").data,
   ("BRTL").data, ("TLBR").data, ("TRBL").data, ("IN").data, ("OUT").data]

/-- The per-camera configuration state `set_entry_direction` can touch: the
in-memory `roi_settings` entry and the persisted `camera_config` row. -/
structure CamCfgState where
  mem : Option MemRoi
  dbRow : Option CfgRow
deriving DecidableEq

/-- Shallow embedding of `DetectionManager.set_entry_direction`
(src/managers/detection_manager.py lines 1036-1103).  `cameraOk` is the
`camera_registry.get_camera` existence test.  A value containing a comma is
validated as a vector: for two finite components the magnitude test
`sqrt(x²+y²) < 1e-6` is embedded as the exactly equivalent squared rational
test `10^12·(x²+y²) < 1`; when either component parses to NaN or an
infinity the source's comparison is False (NaN compares False with
everything, and an infinite magnitude is not below 1e-6), so the rejection
branch is NOT taken and the value is accepted.  On success the in-memory
entry direction is set (creating the entry when absent) and, when ROI
coordinates already exist in memory, both are persisted as the camera's
`camera_config` row via the `save_camera_roi` call. -/
def set_entry_direction (cameraOk : Bool) (st : CamCfgState) (entry_direction : Str) :
    Bool × CamCfgState :=
  if cameraOk = false then (false, st)
  else
    let is_vector_format := entry_direction.contains ','
    if is_vector_format = false ∧ validDirections.contains entry_direction = false then
      (false, st)
    else
      let vecOk : Bool :=
        if is_vector_format then
          match pyParseVector entry_direction with
          | some (PyFloat.val x, PyFloat.val y) => decide (¬ 10 ^ 12 * magSq (x, y) < 1)
          | some _ => true
          | none => false
        else true
      if vecOk = false then (false, st)
      else
        let roi_coords := match st.mem with
          | some m => m.coords
          | none => none
        let memUpd : MemRoi := match st.mem with
          | some m => { m with entry_direction := some entry_direction }
          | none => { coords := none, entry_direction := some entry_direction }
        let dbRowUpd : Option CfgRow := match roi_coords with
          | some cds => some ⟨cds.1, cds.2.1, cds.2.2.1, cds.2.2.2, entry_direction⟩
          | none => st.dbRow
        (true, ⟨some memUpd, dbRowUpd⟩)

/-- HTTP outcome of the snapshot-image endpoint: 403, 404, or a 200 serving
the file at the given path. -/
inductive SnapResp where
  | forbidden
  | notFound
  | sendFile (path : Str)
deriving DecidableEq

/-- The absolute snapshots root hard-coded in `get_snapshot_image`
(src/managers/api_manager.py line 1098). -/
def snapshotsAbs : Str := ("/home/pi/zvision/snapshots").data

/-- `os.path.join` on POSIX for two components: an absolute second component
replaces the first; otherwise they are joined with exactly one slash. -/
def pyJoin (a b : Str) : Str :=
  if b.head? = some '/' then b
  else if a = [] then b
  else if a.getLast? = some '/' then a ++ b
  else a ++ '/' :: b

/-- Path normalization of `os.path.abspath` on an absolute POSIX path:
empty and `.` components vanish and `..` pops the previous component (at
the root it is dropped). -/
def normComps (comps : List Str) : List Str :=
  comps.foldl
    (fun acc comp =>
      if comp = [] ∨ comp = ['.'] then acc
      else if comp = ['.', '.'] then acc.dropLast
      else acc ++ [comp])
    []

/-- Reassemble a path from components, separating them with slashes. -/
def joinComps : List Str → Str
  | [] => []
  | [c] => c
  | c :: rest => c ++ '/' :: joinComps rest

/-- `os.path.abspath` for the paths that reach it here (every path the
endpoint builds starts at the absolute snapshots root, so no working
directory is involved). -/
def pyAbspath (p : Str) : Str :=
  '/' :: joinComps (normComps (splitOnChar '/' p))

/-- Components of the snapshots directory tree: a resolved path is inside
the tree exactly when its component list extends this one (the
specification's notion of the snapshots tree, stated from the spec for C2). -/
def snapshotsTreeComps : List Str :=
  [("home").data, ("pi").data, ("zvision").data, ("snapshots").data]

/-- Whether a path resolves to a location inside the snapshots directory
tree (spec-side predicate for C2). -/
def inSnapshotsTree (p : Str) : Bool :=
  snapshotsTreeComps.isPrefixOf (normComps (splitOnChar '/' p))

/-- Shallow embedding of the `get_snapshot_image` endpoint
(src/managers/api_manager.py lines 1082-1115): join the root, camera id and
filename; reject with 403 when the absolute form of the result does not
start with the root STRING (`file_abs.startswith(snapshots_abs)`); 404 when
the file does not exist; otherwise serve the file.  `fileExists` models
`os.path.exists`. -/
def get_snapshot_image (fileExists : Str → Bool) (camera_id filename : Str) : SnapResp :=
  let snapshots_dir := pyJoin snapshotsAbs camera_id
  let file_path := pyJoin snapshots_dir filename
  let file_abs := pyAbspath file_path
  if snapshotsAbs.isPrefixOf file_abs = false then SnapResp.forbidden
  else if fileExists file_path = false then SnapResp.notFound
  else SnapResp.sendFile file_path

/- ## SnapshotStorageManager: FIFO retention -/

/-- A file in a camera's snapshot directory: name and modification time. -/
structure FileEnt where
  fname : Str
  mtime : ℚ
deriving DecidableEq

/-- The `directory.glob("*.jpg")` filter. -/
def isJpgFile (f : FileEnt) : Bool := (".jpg").data.isSuffixOf f.fname

/-- Shallow embedding of `SnapshotStorageManager._enforce_fifo_for_dir`
(src/managers/storage_manager.py lines 61-93): list the `*.jpg` files, do
nothing when at most `max_files` are present; otherwise sort ascending by
mtime (Python's list sort is stable, as is the insertion sort used here)
and delete the oldest `len(files) - max_files` of them. -/
def _enforce_fifo_for_dir (max_files : ℕ) (dir : List FileEnt) : List FileEnt :=
  let files := dir.filter isJpgFile
  if files.length ≤ max_files then dir
  else
    let sorted := List.insertionSort (fun a b => a.mtime ≤ b.mtime) files
    let num_to_delete := files.length - max_files
    let files_to_delete := sorted.take num_to_delete
    dir.filter (fun f => decide (f ∉ files_to_delete))

/-- Eight snapshot files with distinct modification times, used to witness
the FIFO retention sweep at `max_files = 5`. -/
def snapDir8 : List FileEnt :=
  [⟨("s1.jpg").data, 1⟩, ⟨("s2.jpg").data, 2⟩, ⟨("s3.jpg").data, 3⟩,
   ⟨("s4.jpg").data, 4⟩, ⟨("s5.jpg").data, 5⟩, ⟨("s6.jpg").data, 6⟩,
   ⟨("s7.jpg").data, 7⟩, ⟨("s8.jpg").data, 8⟩]

/-! ## Theorems -/

/- ## Real-number bridges for the squared comparisons -/

/-- A nonzero rational vector has positive squared magnitude. -/
theorem magSq_pos {v : Vec} (hv : v ≠ 0) : 0 < magSq v := by
  rcases v with ⟨x, y⟩
  have hxy : x ≠ 0 ∨ y ≠ 0 := by
    by_contra h
    push_neg at h
    exact hv (by simp [Prod.ext_iff, h.1, h.2])
  rcases hxy with hx | hy
  · have h1 : 0 < x ^ 2 := by positivity
    have h2 : 0 ≤ y ^ 2 := sq_nonneg y
    simp only [magSq]
    nlinarith
  · have h1 : 0 < y ^ 2 := by positivity
    have h2 : 0 ≤ x ^ 2 := sq_nonneg x
    simp only [magSq]
    nlinarith

/-- Threshold bridge: for positive `A`, `B`, the normalized dot product
`q / (√A · √B)` exceeds `1/5` exactly when `q` is positive and
`A·B < 25 q²` — the squared comparison performed by `classifyDot`. -/
theorem fifth_lt_div_sqrt_iff {q A B : ℝ} (hA : 0 < A) (hB : 0 < B) :
    1 / 5 < q / (Real.sqrt A * Real.sqrt B) ↔ 0 < q ∧ A * B < 25 * q ^ 2 := by
  have hsA : 0 < Real.sqrt A := Real.sqrt_pos.2 hA
  have hsB : 0 < Real.sqrt B := Real.sqrt_pos.2 hB
  have hs : 0 < Real.sqrt A * Real.sqrt B := mul_pos hsA hsB
  have hsq : (Real.sqrt A * Real.sqrt B) ^ 2 = A * B := by
    rw [mul_pow, Real.sq_sqrt hA.le, Real.sq_sqrt hB.le]
  rw [lt_div_iff₀ hs]
  constructor
  · intro h
    have hq : 0 < q := lt_trans (by positivity) h
    have h5 : Real.sqrt A * Real.sqrt B < 5 * q := by linarith
    have hpos : 0 < 5 * q + Real.sqrt A * Real.sqrt B := by linarith
    have hprod := mul_pos (sub_pos.2 h5) hpos
    refine ⟨hq, ?_⟩
    nlinarith [hprod, hsq]
  · rintro ⟨hq, hlt⟩
    by_contra hcon
    push_neg at hcon
    have h5 : 5 * q ≤ Real.sqrt A * Real.sqrt B := by linarith
    have : 25 * q ^ 2 ≤ (Real.sqrt A * Real.sqrt B) ^ 2 := by nlinarith
    rw [hsq] at this
    linarith

/-- Negative-threshold bridge companion to `fifth_lt_div_sqrt_iff`. -/
theorem div_sqrt_lt_neg_fifth_iff {q A B : ℝ} (hA : 0 < A) (hB : 0 < B) :
    q / (Real.sqrt A * Real.sqrt B) < -(1 / 5) ↔ q < 0 ∧ A * B < 25 * q ^ 2 := by
  have h := fifth_lt_div_sqrt_iff (q := -q) hA hB
  rw [neg_div] at h
  have hrw : q / (Real.sqrt A * Real.sqrt B) < -(1 / 5) ↔
      1 / 5 < -(q / (Real.sqrt A * Real.sqrt B)) := by
    constructor <;> intro hh <;> linarith
  rw [hrw, h, neg_sq]
  constructor
  · rintro ⟨h1, h2⟩
    exact ⟨by linarith, h2⟩
  · rintro ⟨h1, h2⟩
    exact ⟨by linarith, h2⟩

/-- For a history of at least 3 positions, the slice length
`max 1 (N / 3)` is at most `N`. -/
theorem firstThird_le_length (positions : List Vec) (h3 : 3 ≤ positions.length) :
    max 1 (positions.length / 3) ≤ positions.length := by
  have h1 : 1 ≤ positions.length := by omega
  have h2 : positions.length / 3 ≤ positions.length := Nat.div_le_self _ _
  omega

/-- C7: the movement vector of a history with `N ≥ 3` positions is computed
from `k = max(1, floor(N/3))` with `S`/`E` the averages of the first/last `k`
positions exactly as the spec states; it is produced iff the magnitude
`√(magSq (E−S))` reaches 2, and the source's unit-normalization of the
produced vector is well defined (the normalized vector has norm exactly 1).
Histories with fewer than 3 positions produce no movement vector. -/
theorem calc_movement_vector_spec (positions : List Vec) :
    (positions.length < 3 → _calculate_movement_vector positions = none) ∧
    (3 ≤ positions.length →
      movementDelta positions = specMovementDelta positions ∧
      (Real.sqrt ((magSq (movementDelta positions) : ℚ) : ℝ) < 2 →
        _calculate_movement_vector positions = none) ∧
      (2 ≤ Real.sqrt ((magSq (movementDelta positions) : ℚ) : ℝ) →
        _calculate_movement_vector positions = some (movementDelta positions)) ∧
      (∀ w, _calculate_movement_vector positions = some w →
        Real.sqrt (((w.1 : ℝ) / Real.sqrt ((magSq w : ℚ) : ℝ)) ^ 2 +
                   ((w.2 : ℝ) / Real.sqrt ((magSq w : ℚ) : ℝ)) ^ 2) = 1)) := by
  constructor
  · intro hlt
    simp only [_calculate_movement_vector, if_pos hlt]
  · intro h3
    have hnlt : ¬ positions.length < 3 := by omega
    have hsqrt_iff : Real.sqrt ((magSq (movementDelta positions) : ℚ) : ℝ) < 2 ↔
        magSq (movementDelta positions) < 4 := by
      rw [Real.sqrt_lt' (by norm_num : (0:ℝ) < 2)]
      constructor
      · intro h
        exact_mod_cast h
      · intro h
        exact_mod_cast h
    refine ⟨?_, ?_, ?_, ?_⟩
    · -- the source's slice-length divisors equal the spec's k
      have hk := firstThird_le_length positions h3
      have htake : (positions.take (max 1 (positions.length / 3))).length
          = max 1 (positions.length / 3) := by
        rw [List.length_take]
        omega
      have hdrop : (positions.drop (positions.length - max 1 (positions.length / 3))).length
          = max 1 (positions.length / 3) := by
        rw [List.length_drop]
        omega
      simp only [movementDelta, specMovementDelta, htake, hdrop]
    · intro hlt
      rw [hsqrt_iff] at hlt
      simp only [_calculate_movement_vector, if_neg hnlt]
      rw [if_pos hlt]
    · intro hge
      have hnot : ¬ magSq (movementDelta positions) < 4 := by
        rw [← hsqrt_iff]
        exact not_lt.2 hge
      simp only [_calculate_movement_vector, if_neg hnlt]
      rw [if_neg hnot]
    · intro w hw
      simp only [_calculate_movement_vector, if_neg hnlt] at hw
      by_cases hmag : magSq (movementDelta positions) < 4
      · rw [if_pos hmag] at hw
        exact absurd hw (by simp)
      · rw [if_neg hmag] at hw
        have hwm : w = movementDelta positions := by
          exact (Option.some_inj.1 hw).symm
        have hpos : (0 : ℝ) < ((magSq w : ℚ) : ℝ) := by
          have : (4 : ℚ) ≤ magSq w := by
            rw [hwm]
            exact not_lt.1 hmag
          have h4 : (4 : ℝ) ≤ ((magSq w : ℚ) : ℝ) := by exact_mod_cast this
          linarith
        have hsq : Real.sqrt ((magSq w : ℚ) : ℝ) ^ 2 = ((magSq w : ℚ) : ℝ) :=
          Real.sq_sqrt hpos.le
        have hsum : ((w.1 : ℝ) / Real.sqrt ((magSq w : ℚ) : ℝ)) ^ 2 +
            ((w.2 : ℝ) / Real.sqrt ((magSq w : ℚ) : ℝ)) ^ 2 = 1 := by
          rw [div_pow, div_pow, hsq, div_add_div_same]
          rw [div_eq_one_iff_eq (by linarith)]
          push_cast [magSq]
          ring
        rw [hsum, Real.sqrt_one]

/-- Witness for `calc_movement_vector_spec` at the concrete history
[(0,0), (1,0), (4,0)]: N = 3, k = 1, S = (0,0), E = (4,0), magnitude 4 ≥ 2,
so the movement vector (4,0) is produced and matches the spec formulas. -/
theorem calc_movement_vector_spec_witness :
    3 ≤ ([((0:ℚ),(0:ℚ)), (1,0), (4,0)] : List Vec).length ∧
    movementDelta [((0:ℚ),(0:ℚ)), (1,0), (4,0)]
      = specMovementDelta [((0:ℚ),(0:ℚ)), (1,0), (4,0)] ∧
    _calculate_movement_vector [((0:ℚ),(0:ℚ)), (1,0), (4,0)]
      = some (movementDelta [((0:ℚ),(0:ℚ)), (1,0), (4,0)]) := by
  have h := (calc_movement_vector_spec [((0:ℚ),(0:ℚ)), (1,0), (4,0)]).2 (by decide)
  refine ⟨by decide, h.1, h.2.2.1 ?_⟩
  have hmag : magSq (movementDelta [((0:ℚ),(0:ℚ)), (1,0), (4,0)]) = 16 := by
    simp +decide [movementDelta, magSq]
  rw [hmag]
  rw [show ((16 : ℚ) : ℝ) = 4 ^ 2 by norm_num]
  rw [Real.sqrt_sq (by norm_num : (0:ℝ) ≤ 4)]
  norm_num


/-- C5 (amended): for a history of at least 3 positions, the direction is
undetermined (no movement vector is produced) exactly when the movement
magnitude `|E − S|` is STRICTLY below 2.0 pixels; the comparison is a strict
`<`, so at magnitude exactly 2.0 a movement vector IS produced and
classification proceeds. -/
theorem calc_movement_vector_none_iff (positions : List Vec)
    (h3 : 3 ≤ positions.length) :
    _calculate_movement_vector positions = none ↔
      Real.sqrt ((magSq (movementDelta positions) : ℚ) : ℝ) < 2 := by
  have hnlt : ¬ positions.length < 3 := by omega
  have hsqrt_iff : Real.sqrt ((magSq (movementDelta positions) : ℚ) : ℝ) < 2 ↔
      magSq (movementDelta positions) < 4 := by
    rw [Real.sqrt_lt' (by norm_num : (0:ℝ) < 2)]
    constructor
    · intro h
      exact_mod_cast h
    · intro h
      exact_mod_cast h
  rw [hsqrt_iff]
  simp only [_calculate_movement_vector, if_neg hnlt]
  by_cases hm : magSq (movementDelta positions) < 4
  · simp [hm]
  · simp [hm]

/-- Witness for `calc_movement_vector_none_iff` at the concrete history
[(0,0), (0,1), (0,0)] (magnitude 0, undetermined). -/
theorem calc_movement_vector_none_iff_witness :
    3 ≤ ([((0:ℚ),(0:ℚ)), (0,1), (0,0)] : List Vec).length ∧
    (_calculate_movement_vector [((0:ℚ),(0:ℚ)), (0,1), (0,0)] = none ↔
      Real.sqrt ((magSq (movementDelta [((0:ℚ),(0:ℚ)), (0,1), (0,0)]) : ℚ) : ℝ) < 2) :=
  ⟨by decide, calc_movement_vector_none_iff _ (by decide)⟩

/-- C5 counterexample: the history [(0,0),(1,0),(2,0)] has movement
magnitude exactly 2.0 (√(2² + 0²) = 2), yet a movement vector IS produced
and, with entry direction LTR, an entry classification results — the claim
asserts the direction should be undetermined at exactly 2.0 pixels. -/
theorem c5_magnitude_exactly_two_still_classifies :
    Real.sqrt ((magSq (movementDelta [((0:ℚ),(0:ℚ)), (1,0), (2,0)]) : ℚ) : ℝ) = 2 ∧
    _calculate_movement_vector [((0:ℚ),(0:ℚ)), (1,0), (2,0)] = some (2, 0) ∧
    _determine_direction (fun _ => some ⟨none, some (("LTR").data)⟩) (("main").data)
      (_calculate_movement_vector [((0:ℚ),(0:ℚ)), (1,0), (2,0)]) = some Dir.entry := by
  refine ⟨?_, ?_, ?_⟩
  · have hmag : magSq (movementDelta [((0:ℚ),(0:ℚ)), (1,0), (2,0)]) = 4 := by
      simp +decide [movementDelta, magSq]
    rw [hmag, show ((4:ℚ):ℝ) = 2 ^ 2 by norm_num,
      Real.sqrt_sq (by norm_num : (0:ℝ) ≤ 2)]
  · simp +decide [_calculate_movement_vector, movementDelta, magSq]
  · simp +decide [_determine_direction, _calculate_movement_vector, movementDelta, magSq,
      parseDirVec, classifyDot]

/-- C6 (amended): whenever the camera's stored entry-direction descriptor
parses to a vector `a` of magnitude strictly above 1e-6 (equivalently
`10^12 · magSq a > 1`; every symbolic code qualifies), movement-vector
classification returns entry iff the normalized dot product `d = v̂ · â`
strictly exceeds 0.2, exit iff `d` is strictly below −0.2, and undetermined
otherwise — in particular `d` exactly ±0.2 is undetermined.  For a stored
free vector of magnitude exactly 1e-6, which write-time validation accepts,
the source skips normalization and classification is always undetermined;
see the counterexample. -/
theorem determine_direction_dot_characterization
    (roiSettings : Str → Option MemRoi) (camera_id : Str) (st : MemRoi) (v a : Vec)
    (hst : roiSettings camera_id = some st)
    (hparse : parseDirVec (st.entry_direction.getD (("1,0").data)) = some a)
    (hv : v ≠ 0)
    (ha : 1 < 10 ^ 12 * magSq a)
    (d : ℝ)
    (hd : d = ((v.1 * a.1 + v.2 * a.2 : ℚ) : ℝ) /
        (Real.sqrt ((magSq v : ℚ) : ℝ) * Real.sqrt ((magSq a : ℚ) : ℝ))) :
    (_determine_direction roiSettings camera_id (some v) = some Dir.entry ↔ 1 / 5 < d) ∧
    (_determine_direction roiSettings camera_id (some v) = some Dir.exit ↔ d < -(1 / 5)) ∧
    (_determine_direction roiSettings camera_id (some v) = none ↔
      -(1 / 5) ≤ d ∧ d ≤ 1 / 5) := by
  have haq : 0 < magSq a := by nlinarith [ha]
  have hA : (0 : ℝ) < ((magSq v : ℚ) : ℝ) := by exact_mod_cast magSq_pos hv
  have hB : (0 : ℝ) < ((magSq a : ℚ) : ℝ) := by exact_mod_cast haq
  have hdet : _determine_direction roiSettings camera_id (some v) = classifyDot v a := by
    simp only [_determine_direction, hst, hparse]
  have hentry : (1 / 5 < d) ↔
      (0 < v.1 * a.1 + v.2 * a.2 ∧
        magSq v * magSq a < 25 * (v.1 * a.1 + v.2 * a.2) ^ 2) := by
    rw [hd, fifth_lt_div_sqrt_iff hA hB]
    constructor
    · rintro ⟨h1, h2⟩
      exact ⟨by exact_mod_cast h1, by exact_mod_cast h2⟩
    · rintro ⟨h1, h2⟩
      exact ⟨by exact_mod_cast h1, by exact_mod_cast h2⟩
  have hexit : (d < -(1 / 5)) ↔
      (v.1 * a.1 + v.2 * a.2 < 0 ∧
        magSq v * magSq a < 25 * (v.1 * a.1 + v.2 * a.2) ^ 2) := by
    rw [hd, div_sqrt_lt_neg_fifth_iff hA hB]
    constructor
    · rintro ⟨h1, h2⟩
      exact ⟨by exact_mod_cast h1, by exact_mod_cast h2⟩
    · rintro ⟨h1, h2⟩
      exact ⟨by exact_mod_cast h1, by exact_mod_cast h2⟩
  rw [hdet]
  simp only [classifyDot]
  rw [if_pos ha]
  by_cases h1 : 0 < v.1 * a.1 + v.2 * a.2 ∧
      magSq v * magSq a < 25 * (v.1 * a.1 + v.2 * a.2) ^ 2
  · rw [if_pos h1]
    have hdpos : 1 / 5 < d := hentry.mpr h1
    refine ⟨iff_of_true rfl hdpos, iff_of_false (by simp) ?_, iff_of_false (by simp) ?_⟩
    · intro hc
      have := (hexit.mp hc).1
      linarith [h1.1]
    · rintro ⟨-, hle⟩
      linarith
  · rw [if_neg h1]
    by_cases h2 : v.1 * a.1 + v.2 * a.2 < 0 ∧
        magSq v * magSq a < 25 * (v.1 * a.1 + v.2 * a.2) ^ 2
    · rw [if_pos h2]
      have hdneg : d < -(1 / 5) := hexit.mpr h2
      refine ⟨iff_of_false (by simp) ?_, iff_of_true rfl hdneg,
        iff_of_false (by simp) ?_⟩
      · intro hc
        have := (hentry.mp hc).1
        linarith [h2.1]
      · rintro ⟨hge, -⟩
        linarith
    · rw [if_neg h2]
      have hnd1 : ¬ (1 / 5 < d) := fun hc => h1 (hentry.mp hc)
      have hnd2 : ¬ (d < -(1 / 5)) := fun hc => h2 (hexit.mp hc)
      exact ⟨iff_of_false (by simp) hnd1, iff_of_false (by simp) hnd2,
        iff_of_true rfl ⟨not_lt.1 hnd2, not_lt.1 hnd1⟩⟩

/-- Witness for `determine_direction_dot_characterization`: camera `main`
with symbolic code LTR (direction vector (1,0)) and movement vector (2,0)
(dot product d = 1 > 0.2, classified as entry). -/
theorem determine_direction_dot_characterization_witness :
    (_determine_direction (fun _ => some ⟨none, some (("LTR").data)⟩) (("main").data)
        (some ((2 : ℚ), (0 : ℚ))) = some Dir.entry ↔
      1 / 5 < (((2 : ℚ) * 1 + 0 * 0 : ℚ) : ℝ) /
        (Real.sqrt ((magSq ((2 : ℚ), (0 : ℚ)) : ℚ) : ℝ) *
         Real.sqrt ((magSq ((1 : ℚ), (0 : ℚ)) : ℚ) : ℝ))) ∧
    (_determine_direction (fun _ => some ⟨none, some (("LTR").data)⟩) (("main").data)
        (some ((2 : ℚ), (0 : ℚ))) = none ↔
      -(1 / 5) ≤ (((2 : ℚ) * 1 + 0 * 0 : ℚ) : ℝ) /
        (Real.sqrt ((magSq ((2 : ℚ), (0 : ℚ)) : ℚ) : ℝ) *
         Real.sqrt ((magSq ((1 : ℚ), (0 : ℚ)) : ℚ) : ℝ)) ∧
      (((2 : ℚ) * 1 + 0 * 0 : ℚ) : ℝ) /
        (Real.sqrt ((magSq ((2 : ℚ), (0 : ℚ)) : ℚ) : ℝ) *
         Real.sqrt ((magSq ((1 : ℚ), (0 : ℚ)) : ℚ) : ℝ)) ≤ 1 / 5) := by
  have h := determine_direction_dot_characterization
      (fun _ => some ⟨none, some (("LTR").data)⟩) (("main").data)
      ⟨none, some (("LTR").data)⟩ ((2 : ℚ), (0 : ℚ)) ((1 : ℚ), (0 : ℚ))
      rfl (by decide) (by simp [Prod.ext_iff]) (by norm_num [magSq]) _ rfl
  exact ⟨h.1, h.2.2⟩


/-- C6 counterexample: the free-vector descriptor "0.000001,0" has magnitude
exactly 1e-6, is accepted by write-time validation (`set_entry_direction`
returns True), and normalizes to the unit entry-direction vector â = (1,0);
the unit movement vector v̂ = (1,0) has dot product d = 1 > 0.2, yet
classification returns undetermined, because `_determine_direction`
normalizes the stored direction vector only when its magnitude strictly
exceeds 1e-6.  This refutes "returns entry if and only if d > 0.2". -/
theorem c6_tiny_direction_vector_never_classifies :
    (set_entry_direction true ⟨none, none⟩ (("0.000001,0").data)).1 = true ∧
    pyParseVector (("0.000001,0").data)
      = some (PyFloat.val (1 / 1000000), PyFloat.val 0) ∧
    _determine_direction (fun _ => some ⟨none, some (("0.000001,0").data)⟩)
      (("cam").data) (some ((1 : ℚ), (0 : ℚ))) = none ∧
    1 / 5 < (((1 : ℚ) * (1 / 1000000) + 0 * 0 : ℚ) : ℝ) /
      (Real.sqrt ((magSq ((1 : ℚ), (0 : ℚ)) : ℚ) : ℝ) *
       Real.sqrt ((magSq ((1 / 1000000 : ℚ), (0 : ℚ)) : ℚ) : ℝ)) := by
  have hp : pyParseVector (("0.000001,0").data)
      = some (PyFloat.val (1 / 1000000), PyFloat.val 0) := by
    simp +decide [pyParseVector, pyFloatParse, pyDecimalQ, stripWs, splitOnChar,
      digitsVal, digitVal, underscoresOk, underscoresOkAux]
  refine ⟨?_, hp, ?_, ?_⟩
  · simp only [set_entry_direction]
    simp +decide [hp, magSq]
    norm_num
  · have hp2 : parseDirVec (("0.000001,0").data) = some (1 / 1000000, 0) := by
      rw [parseDirVec, if_pos (by decide : (("0.000001,0").data).contains ',' = true),
        hp]
    simp only [_determine_direction, Option.getD_some, hp2]
    simp only [classifyDot, magSq]
    norm_num
  · have h1 : magSq ((1 : ℚ), (0 : ℚ)) = 1 := by norm_num [magSq]
    have h2 : magSq ((1 / 1000000 : ℚ), (0 : ℚ)) = 1 / 10 ^ 12 := by
      norm_num [magSq]
    rw [h1, h2]
    rw [show ((1:ℚ):ℝ) = 1 by norm_num, Real.sqrt_one]
    rw [show (((1 : ℚ) / 10 ^ 12 : ℚ) : ℝ) = ((1 : ℝ) / 10 ^ 6) ^ 2 by norm_num]
    rw [Real.sqrt_sq (by norm_num : (0:ℝ) ≤ 1 / 10 ^ 6)]
    push_cast
    norm_num



/-- The boundary phase either writes nothing (fields unchanged) or writes
one boundary row whose label was not the committed one, latching the
latch and recording the label. -/
theorem boundaryPhase_cases (in_roi : Bool) (t : TrackInfo) :
    ((boundaryPhase in_roi t).2 = [] ∧
      (boundaryPhase in_roi t).1.direction_logged = t.direction_logged ∧
      (boundaryPhase in_roi t).1.movement_direction = t.movement_direction) ∨
    (∃ dir, (boundaryPhase in_roi t).2 = [⟨EvSrc.boundary, dir⟩] ∧
      (t.direction_logged = false ∨ t.movement_direction ≠ some dir) ∧
      (boundaryPhase in_roi t).1.direction_logged = true ∧
      (boundaryPhase in_roi t).1.movement_direction = some dir) := by
  unfold boundaryPhase
  by_cases hcross : in_roi ≠ t.in_roi
  · rw [if_pos hcross]
    by_cases hin : in_roi = true
    · rw [if_pos hin]
      by_cases hlog : t.direction_logged = false ∨ t.movement_direction ≠ some Dir.entry
      · rw [if_pos hlog]
        exact Or.inr ⟨Dir.entry, rfl, hlog, rfl, rfl⟩
      · rw [if_neg hlog]
        exact Or.inl ⟨rfl, rfl, rfl⟩
    · rw [if_neg hin]
      by_cases hlog : t.direction_logged = false ∨ t.movement_direction ≠ some Dir.exit
      · rw [if_pos hlog]
        exact Or.inr ⟨Dir.exit, rfl, hlog, rfl, rfl⟩
      · rw [if_neg hlog]
        exact Or.inl ⟨rfl, rfl, rfl⟩
  · rw [if_neg hcross]
    exact Or.inl ⟨rfl, rfl, rfl⟩

/-- Once `direction_logged` is set, the movement phase never writes a row
and never changes the committed fields. -/
theorem movementPhase_logged (roiSettings : Str → Option MemRoi) (camera_id : Str)
    (t2 : TrackInfo) (h : t2.direction_logged = true) :
    movementPhase roiSettings camera_id t2 = (t2, []) := by
  unfold movementPhase
  have hne : ¬ t2.direction_logged = false := by simp [h]
  by_cases hcond : (3 ≤ t2.positions.length ∧ t2.direction_logged = false)
      ∨ t2.roi_status_changed = true
  · rw [if_pos hcond]
    cases hmv : _calculate_movement_vector t2.positions with
    | none => rfl
    | some mv =>
      dsimp only
      cases hdir : _determine_direction roiSettings camera_id (some mv) with
      | none => rfl
      | some d =>
        dsimp only
        rw [if_neg hne]
  · rw [if_neg hcond]

/-- The movement phase either writes nothing (fields unchanged) or writes
one movement row, which requires the latch to have been unset. -/
theorem movementPhase_cases (roiSettings : Str → Option MemRoi) (camera_id : Str)
    (t2 : TrackInfo) :
    ((movementPhase roiSettings camera_id t2).2 = [] ∧
      (movementPhase roiSettings camera_id t2).1.direction_logged
        = t2.direction_logged ∧
      (movementPhase roiSettings camera_id t2).1.movement_direction
        = t2.movement_direction) ∨
    (∃ dir, (movementPhase roiSettings camera_id t2).2 = [⟨EvSrc.movement, dir⟩] ∧
      t2.direction_logged = false ∧
      (movementPhase roiSettings camera_id t2).1.direction_logged = true ∧
      (movementPhase roiSettings camera_id t2).1.movement_direction = some dir) := by
  unfold movementPhase
  by_cases hcond : (3 ≤ t2.positions.length ∧ t2.direction_logged = false)
      ∨ t2.roi_status_changed = true
  · rw [if_pos hcond]
    cases hmv : _calculate_movement_vector t2.positions with
    | none => exact Or.inl ⟨rfl, rfl, rfl⟩
    | some mv =>
      dsimp only
      cases hdir : _determine_direction roiSettings camera_id (some mv) with
      | none => exact Or.inl ⟨rfl, rfl, rfl⟩
      | some d =>
        dsimp only
        by_cases hdl : t2.direction_logged = false
        · rw [if_pos hdl]
          exact Or.inr ⟨d, rfl, hdl, rfl, rfl⟩
        · rw [if_neg hdl]
          exact Or.inl ⟨rfl, rfl, rfl⟩
  · rw [if_neg hcond]
    exact Or.inl ⟨rfl, rfl, rfl⟩

/-- Case analysis of one `_update_track_state` call: either no entry/exit
row is written and the `direction_logged` / `movement_direction` fields are
unchanged, or exactly one row is written — by the boundary branch only when
no row with the same label was committed last, by the movement branch only
when `direction_logged` was still unset — and the fields record its label. -/
theorem update_track_state_cases (roiSettings : Str → Option MemRoi) (camera_id : Str)
    (roi : Rect) (c : Vec) (t : TrackInfo) :
    ((_update_track_state roiSettings camera_id roi c t).2 = [] ∧
      (_update_track_state roiSettings camera_id roi c t).1.direction_logged
        = t.direction_logged ∧
      (_update_track_state roiSettings camera_id roi c t).1.movement_direction
        = t.movement_direction) ∨
    (∃ dir, (_update_track_state roiSettings camera_id roi c t).2
        = [⟨EvSrc.boundary, dir⟩] ∧
      (t.direction_logged = false ∨ t.movement_direction ≠ some dir) ∧
      (_update_track_state roiSettings camera_id roi c t).1.direction_logged = true ∧
      (_update_track_state roiSettings camera_id roi c t).1.movement_direction
        = some dir) ∨
    (∃ dir, (_update_track_state roiSettings camera_id roi c t).2
        = [⟨EvSrc.movement, dir⟩] ∧
      t.direction_logged = false ∧
      (_update_track_state roiSettings camera_id roi c t).1.direction_logged = true ∧
      (_update_track_state roiSettings camera_id roi c t).1.movement_direction
        = some dir) := by
  unfold _update_track_state
  dsimp only
  rcases boundaryPhase_cases (inRoi roi c) t with ⟨hb0, hbdl, hbmd⟩ | ⟨dir, hbev, hbpre, hbdl, hbmd⟩
  · -- no boundary row: the positions update leaves the watched fields as in t
    rcases movementPhase_cases roiSettings camera_id
        { (boundaryPhase (inRoi roi c) t).1 with
          positions := pushPos (boundaryPhase (inRoi roi c) t).1.positions c }
      with ⟨hm0, hmdl, hmmd⟩ | ⟨d, hmev, hmpre, hmdl, hmmd⟩
    · left
      rw [hb0, hm0]
      simp only [List.append_nil]
      refine ⟨by simp, ?_, ?_⟩
      · rw [hmdl]
        simpa using hbdl
      · rw [hmmd]
        simpa using hbmd
    · right
      right
      refine ⟨d, ?_, ?_, ?_, ?_⟩
      · rw [hb0, hmev]
        rfl
      · rw [← hbdl]
        simpa using hmpre
      · exact hmdl
      · exact hmmd
  · -- a boundary row was written: the latch is set, so the movement phase is inert
    have hlog2 : ({ (boundaryPhase (inRoi roi c) t).1 with
        positions := pushPos (boundaryPhase (inRoi roi c) t).1.positions c } :
          TrackInfo).direction_logged = true := by
      simpa using hbdl
    rw [movementPhase_logged roiSettings camera_id _ hlog2]
    right
    left
    refine ⟨dir, ?_, hbpre, ?_, ?_⟩
    · rw [hbev]
      rfl
    · simpa using hbdl
    · simpa using hbmd


/-- One `_update_track_state` call preserves the event-row invariant. -/
theorem evinv_step (roiSettings : Str → Option MemRoi) (camera_id : Str)
    (roi : Rect) (c : Vec) (t : TrackInfo) (evs : List Ev) (h : EvInv t evs) :
    EvInv (_update_track_state roiSettings camera_id roi c t).1
      (evs ++ (_update_track_state roiSettings camera_id roi c t).2) := by
  obtain ⟨h1, h2, h3, h4⟩ := h
  rcases update_track_state_cases roiSettings camera_id roi c t with
    ⟨he, hdl, hmd⟩ | ⟨dir, he, hpre, hdl, hmd⟩ | ⟨dir, he, hpre, hdl, hmd⟩
  · rw [he, List.append_nil]
    refine ⟨?_, ?_, h3, h4⟩
    · rw [hdl]
      exact h1
    · intro e hel
      rw [hmd]
      exact h2 e hel
  · -- one boundary row appended
    rw [he]
    refine ⟨?_, ?_, ?_, ?_⟩
    · rw [hdl]
      simp
    · intro e hel
      rw [List.getLast?_concat] at hel
      cases hel
      rw [hmd]
    · rw [List.chain'_append]
      refine ⟨h3, List.chain'_singleton _, ?_⟩
      intro x hx y hy
      simp only [List.head?_cons, Option.mem_def, Option.some.injEq] at hy
      subst hy
      have hxmd := h2 x hx
      have hne : evs ≠ [] := by
        intro hnil
        rw [hnil] at hx
        simp at hx
      rcases hpre with hdlf | hmdne
      · exact absurd (h1.mpr hne) (by simp [hdlf])
      · intro hcon
        apply hmdne
        rw [hxmd, hcon]
    · intro e hel
      cases evs with
      | nil => simp at hel
      | cons x xs =>
        simp only [List.cons_append, List.drop_succ_cons, List.drop_zero] at hel
        rcases List.mem_append.1 hel with hin | hin
        · exact h4 e (by simpa using hin)
        · simp only [List.mem_singleton] at hin
          rw [hin]
  · -- one movement row: the latch was unset, so no row existed yet
    have hnil : evs = [] := by
      by_contra hne
      exact absurd (h1.mpr hne) (by simp [hpre])
    subst hnil
    rw [he]
    refine ⟨?_, ?_, ?_, ?_⟩
    · rw [hdl]
      simp
    · intro e hel
      simp only [List.nil_append, List.getLast?_singleton, Option.some.injEq] at hel
      rw [← hel, hmd]
    · simp
    · intro e hel
      simp at hel

/-- The event-row invariant holds along any fold of `_update_track_state`
calls. -/
theorem runTrack_foldl_inv (roiSettings : Str → Option MemRoi) (camera_id : Str)
    (updates : List (Vec × Rect)) :
    ∀ (t : TrackInfo) (evs : List Ev), EvInv t evs →
      EvInv (updates.foldl (fun acc u =>
          let r := _update_track_state roiSettings camera_id u.2 u.1 acc.1
          (r.1, acc.2 ++ r.2)) (t, evs)).1
        (updates.foldl (fun acc u =>
          let r := _update_track_state roiSettings camera_id u.2 u.1 acc.1
          (r.1, acc.2 ++ r.2)) (t, evs)).2 := by
  induction updates with
  | nil =>
    intro t evs h
    simpa using h
  | cons u rest ih =>
    intro t evs h
    simp only [List.foldl_cons]
    exact ih _ _ (evinv_step roiSettings camera_id u.2 u.1 t evs h)

/-- A fresh track satisfies the event-row invariant with no rows. -/
theorem evinv_newTrack (roi : Rect) (c : Vec) : EvInv (newTrackState roi c) [] := by
  refine ⟨by simp [newTrackState], ?_, by simp, by simp⟩
  intro e hel
  simp at hel

/-- When every row after the first comes from the boundary branch, at most
one row comes from the movement branch. -/
theorem movement_rows_le_one (evs : List Ev)
    (h : ∀ e ∈ evs.drop 1, e.src = EvSrc.boundary) :
    (evs.filter (fun e => decide (e.src = EvSrc.movement))).length ≤ 1 := by
  cases evs with
  | nil => simp
  | cons e0 rest =>
    have hrest : rest.filter (fun e => decide (e.src = EvSrc.movement)) = [] := by
      rw [List.filter_eq_nil_iff]
      intro a ha
      have := h a (by simpa using ha)
      simp [this]
    by_cases h0 : e0.src = EvSrc.movement
    · simp [List.filter_cons, h0, hrest]
    · simp [List.filter_cons, h0, hrest]

/-- C1 (amended): over a Track's whole lifetime, at most one entry/exit row
is ever written by the movement-vector classification branch — once
`direction_logged` is set, that branch writes no further row — and every
further row comes from an ROI-boundary crossing whose label differs from the
previously committed one, so consecutively logged labels always alternate.
(The claim's stronger statement, at most one row overall, is refuted by the
counterexample: an opposite-label boundary crossing logs again after
`direction_logged` is set.) -/
theorem runTrack_movement_rows_bounded (roiSettings : Str → Option MemRoi)
    (camera_id : Str) (first : Vec × Rect) (updates : List (Vec × Rect)) :
    (((runTrack roiSettings camera_id first updates).2.filter
        (fun e => decide (e.src = EvSrc.movement))).length ≤ 1) ∧
    List.Chain' (fun a b : Ev => a.dir ≠ b.dir)
      (runTrack roiSettings camera_id first updates).2 := by
  have h := runTrack_foldl_inv roiSettings camera_id updates
    (newTrackState first.2 first.1) [] (evinv_newTrack first.2 first.1)
  obtain ⟨-, -, h3, h4⟩ := h
  exact ⟨movement_rows_le_one _ h4, h3⟩


/-- C1 counterexample: with ROI (0,0,10,10), a track born inside the ROI at
(5,5) that steps outside to (11,5) and back inside to (5,5) gets TWO
entry/exit rows written (an exit, then an entry): the second ROI-boundary
crossing logs again even though `direction_logged` is already set, because
its label differs from the committed `movement_direction`.  This refutes "at
most one entry/exit DetectionEvent row is ever written for that Track". -/
theorem c1_two_rows_for_one_track :
    ((runTrack (fun _ => none) (("cam0").data) ((5, 5), ⟨0, 0, 10, 10⟩)
        [((11, 5), ⟨0, 0, 10, 10⟩), ((5, 5), ⟨0, 0, 10, 10⟩)]).2
      = [⟨EvSrc.boundary, Dir.exit⟩, ⟨EvSrc.boundary, Dir.entry⟩]) ∧
    ¬ ((runTrack (fun _ => none) (("cam0").data) ((5, 5), ⟨0, 0, 10, 10⟩)
        [((11, 5), ⟨0, 0, 10, 10⟩), ((5, 5), ⟨0, 0, 10, 10⟩)]).2.length ≤ 1) := by
  have hrun : (runTrack (fun _ => none) (("cam0").data) ((5, 5), ⟨0, 0, 10, 10⟩)
      [((11, 5), ⟨0, 0, 10, 10⟩), ((5, 5), ⟨0, 0, 10, 10⟩)]).2
      = [⟨EvSrc.boundary, Dir.exit⟩, ⟨EvSrc.boundary, Dir.entry⟩] := by
    simp +decide [runTrack, _update_track_state, boundaryPhase, movementPhase,
      newTrackState, inRoi, pushPos, _calculate_movement_vector,
      _determine_direction, movementDelta, magSq]
  refine ⟨hrun, ?_⟩
  rw [hrun]
  simp


/-- C3: for every camera with a persisted `camera_config` row (and truthy
entry direction), `_load_roi_settings` stores as the camera's in-memory ROI
coords the tuple of KEY NAMES x1, y1, x2, y2 — strings, not the numeric
coordinate values — because tuple-unpacking the coords mapping iterates its
keys; and the `float(...)` conversions frame processing applies to these
coordinates all fail, so processing never obtains the numeric ROI
rectangle from the loaded settings. -/
theorem load_roi_settings_stores_key_names (db : DbState) (camera_id : Str)
    (row : CfgRow) (hrow : db.camera_config camera_id = some row)
    (hdir : row.entry_direction ≠ []) :
    _load_roi_settings db camera_id =
      some ⟨some (PyVal.str (("x1").data), PyVal.str (("y1").data),
                  PyVal.str (("x2").data), PyVal.str (("y2").data)),
            some row.entry_direction⟩ ∧
    pyFloatOfVal (PyVal.str (("x1").data)) = none ∧
    pyFloatOfVal (PyVal.str (("y1").data)) = none ∧
    pyFloatOfVal (PyVal.str (("x2").data)) = none ∧
    pyFloatOfVal (PyVal.str (("y2").data)) = none := by
  refine ⟨?_, by decide, by decide, by decide, by decide⟩
  simp only [_load_roi_settings, get_camera_roi, hrow]
  dsimp only [List.map]
  rw [if_pos (And.intro ⟨by decide, by decide, by decide, by decide⟩ hdir)]

/-- Witness for `load_roi_settings_stores_key_names`: camera `main` with the
persisted ROI (100,100,540,380) and entry direction LTR loads the key-name
strings, not the numbers. -/
theorem load_roi_settings_stores_key_names_witness :
    _load_roi_settings
      ⟨fun _ => none,
       fun k => if k = ("main").data
         then some ⟨PyVal.num 100, PyVal.num 100, PyVal.num 540, PyVal.num 380,
                    ("LTR").data⟩
         else none⟩ (("main").data) =
      some ⟨some (PyVal.str (("x1").data), PyVal.str (("y1").data),
                  PyVal.str (("x2").data), PyVal.str (("y2").data)),
            some (("LTR").data)⟩ ∧
    pyFloatOfVal (PyVal.str (("x1").data)) = none := by
  have h := load_roi_settings_stores_key_names
    ⟨fun _ => none,
     fun k => if k = ("main").data
       then some ⟨PyVal.num 100, PyVal.num 100, PyVal.num 540, PyVal.num 380,
                  ("LTR").data⟩
       else none⟩
    (("main").data)
    ⟨PyVal.num 100, PyVal.num 100, PyVal.num 540, PyVal.num 380, ("LTR").data⟩
    (by simp) (by decide)
  exact ⟨h.1, h.2.1⟩

/-- C4: on the schema `_init_database` creates, every `add_camera` call
returns False and commits nothing to either table: the UPDATE/INSERT on
`camera_config` references columns (source, name, width, height, fps,
enabled) that do not exist there, so the statement raises before
`conn.commit()` and the close rolls the transaction back. -/
theorem add_camera_always_fails (db : DbState) (camera_id source name : Str)
    (width height fps : ℚ) :
    add_camera db camera_id source name width height fps = (false, db) := by
  unfold add_camera
  rw [if_neg (by decide)]
  rw [if_neg (by decide)]
  cases hrow : db.camera_config camera_id with
  | some r =>
    dsimp only
    rw [if_pos (by decide)]
  | none =>
    dsimp only
    rw [if_pos (by decide)]

/-- C9: writing a camera's ROI rectangle and entry direction with
`save_camera_roi` and reading back with `get_camera_roi` returns the
identical four coordinate values (keyed x1, y1, x2, y2) and the identical
entry-direction string. -/
theorem save_get_camera_roi_roundtrip (db : DbState) (camera_id : Str)
    (roi : PyVal × PyVal × PyVal × PyVal) (entry_dir : Str) :
    get_camera_roi (save_camera_roi db camera_id roi entry_dir) camera_id =
      some ⟨[(("x1").data, roi.1), (("y1").data, roi.2.1),
             (("x2").data, roi.2.2.1), (("y2").data, roi.2.2.2)], entry_dir⟩ := by
  simp [get_camera_roi, save_camera_roi]

/-- C2 (amended): the endpoint rejects with 403 exactly those requests whose
resolved absolute path does not start with the STRING
"/home/pi/zvision/snapshots", and any served file satisfies that
string-prefix condition.  The string-prefix condition is weaker than being
inside the snapshots directory tree: sibling filesystem entries such as
/home/pi/zvision/snapshots_evil share the prefix, so traversal into them via
`..` components in the filename is not rejected (see the counterexample). -/
theorem get_snapshot_image_string_guard (fileExists : Str → Bool)
    (camera_id filename : Str) :
    (get_snapshot_image fileExists camera_id filename = SnapResp.forbidden ↔
      snapshotsAbs.isPrefixOf
        (pyAbspath (pyJoin (pyJoin snapshotsAbs camera_id) filename)) = false) ∧
    (∀ p, get_snapshot_image fileExists camera_id filename = SnapResp.sendFile p →
      snapshotsAbs.isPrefixOf (pyAbspath p) = true) := by
  unfold get_snapshot_image
  dsimp only
  by_cases hpre : snapshotsAbs.isPrefixOf
      (pyAbspath (pyJoin (pyJoin snapshotsAbs camera_id) filename)) = false
  · rw [if_pos hpre]
    refine ⟨iff_of_true rfl hpre, ?_⟩
    intro p hp
    exact absurd hp (by simp)
  · rw [if_neg hpre]
    have hpre2 : snapshotsAbs.isPrefixOf
        (pyAbspath (pyJoin (pyJoin snapshotsAbs camera_id) filename)) = true := by
      cases hc : snapshotsAbs.isPrefixOf
          (pyAbspath (pyJoin (pyJoin snapshotsAbs camera_id) filename)) with
      | false => exact absurd hc hpre
      | true => rfl
    by_cases hex : fileExists (pyJoin (pyJoin snapshotsAbs camera_id) filename) = false
    · rw [if_pos hex]
      refine ⟨iff_of_false (by simp) (by simp [hpre2]), ?_⟩
      intro p hp
      exact absurd hp (by simp)
    · rw [if_neg hex]
      refine ⟨iff_of_false (by simp) (by simp [hpre2]), ?_⟩
      intro p hp
      simp only [SnapResp.sendFile.injEq] at hp
      rw [← hp]
      exact hpre2

/-- Witness for `get_snapshot_image_string_guard`: a well-formed request for
cam/pic.jpg is served and the served path carries the required string
prefix. -/
theorem get_snapshot_image_string_guard_witness :
    get_snapshot_image (fun _ => true) (("cam").data) (("pic.jpg").data)
      = SnapResp.sendFile (("/home/pi/zvision/snapshots/cam/pic.jpg").data) ∧
    snapshotsAbs.isPrefixOf
      (pyAbspath (("/home/pi/zvision/snapshots/cam/pic.jpg").data)) = true := by
  have hserve : get_snapshot_image (fun _ => true) (("cam").data) (("pic.jpg").data)
      = SnapResp.sendFile (("/home/pi/zvision/snapshots/cam/pic.jpg").data) := by
    decide
  exact ⟨hserve,
    (get_snapshot_image_string_guard (fun _ => true) (("cam").data)
      (("pic.jpg").data)).2 _ hserve⟩

/-- C2 counterexample: the request camera_id = cam, filename =
../../snapshots_evil/x.jpg resolves OUTSIDE the snapshots tree (to
/home/pi/zvision/snapshots_evil/x.jpg), yet the endpoint serves the file
rather than rejecting with 403, because the resolved path still begins with
the string "/home/pi/zvision/snapshots" — the prefix test lacks a trailing
path separator and lets sibling entries through. -/
theorem c2_path_traversal_served :
    get_snapshot_image (fun _ => true) (("cam").data)
        (("../../snapshots_evil/x.jpg").data)
      = SnapResp.sendFile
          (("/home/pi/zvision/snapshots/cam/../../snapshots_evil/x.jpg").data) ∧
    pyAbspath (("/home/pi/zvision/snapshots/cam/../../snapshots_evil/x.jpg").data)
      = (("/home/pi/zvision/snapshots_evil/x.jpg").data) ∧
    inSnapshotsTree
      (("/home/pi/zvision/snapshots/cam/../../snapshots_evil/x.jpg").data) = false ∧
    get_snapshot_image (fun _ => true) (("cam").data)
        (("../../snapshots_evil/x.jpg").data) ≠ SnapResp.forbidden := by
  refine ⟨by decide, by decide, by decide, by decide⟩


/-- Characterization of one FIFO deletion pass: removing (by membership) the
first `d` entries of an mtime-sorted permutation of the jpg files keeps
exactly `length − d` jpg files, keeps every non-jpg file, and deletes only
jpg files strictly older than every kept jpg file. -/
theorem fifo_delete_characterization (dir files sorted res : List FileEnt) (d : ℕ)
    (hfiles : files = dir.filter isJpgFile)
    (hnd : dir.Nodup)
    (hmt : (files.map FileEnt.mtime).Nodup)
    (hperm : sorted.Perm files)
    (hsort : List.Pairwise (fun a b : FileEnt => a.mtime ≤ b.mtime) sorted)
    (hres : res = dir.filter (fun f => decide (f ∉ sorted.take d))) :
    (res.filter isJpgFile).length = sorted.length - d ∧
    (∀ f ∈ dir, isJpgFile f = false → f ∈ res) ∧
    (∀ f ∈ dir, f ∉ res →
      isJpgFile f = true ∧ ∀ g ∈ res, isJpgFile g = true → f.mtime < g.mtime) := by
  have hfnd : files.Nodup := hfiles ▸ hnd.filter _
  have hsnd : sorted.Nodup := hfnd.perm hperm.symm
  have hsplit : sorted.take d ++ sorted.drop d = sorted := List.take_append_drop d sorted
  have hdel_mem : ∀ f ∈ sorted.take d, f ∈ files := by
    intro f hf
    exact hperm.mem_iff.1 (List.take_subset d sorted hf)
  have hdel_jpg : ∀ f ∈ sorted.take d, isJpgFile f = true := by
    intro f hf
    have hm : f ∈ dir.filter isJpgFile := hfiles ▸ hdel_mem f hf
    exact (List.mem_filter.1 hm).2
  have hdisj : ∀ f ∈ sorted.take d, f ∉ sorted.drop d := by
    intro f hf hfd
    have hnd2 : (sorted.take d ++ sorted.drop d).Nodup := by
      rw [hsplit]
      exact hsnd
    exact (List.nodup_append.1 hnd2).2.2 hf hfd
  have hcomm : res.filter isJpgFile
      = files.filter (fun f => decide (f ∉ sorted.take d)) := by
    rw [hres, hfiles, List.filter_filter, List.filter_filter]
    apply List.filter_congr
    intro x hx
    exact Bool.and_comm _ _
  have heq : sorted.filter (fun f => decide (f ∉ sorted.take d)) = sorted.drop d := by
    have h2gen : ∀ p : FileEnt → Bool, sorted.filter p
        = (sorted.take d).filter p ++ (sorted.drop d).filter p := by
      intro p
      conv_lhs => rw [← hsplit]
      rw [List.filter_append]
    have h2 := h2gen (fun f => decide (f ∉ sorted.take d))
    have h3 : (sorted.take d).filter (fun f => decide (f ∉ sorted.take d)) = [] := by
      rw [List.filter_eq_nil_iff]
      intro a ha
      simp [ha]
    have h4 : (sorted.drop d).filter (fun f => decide (f ∉ sorted.take d))
        = sorted.drop d := by
      rw [List.filter_eq_self]
      intro a ha
      simp only [decide_eq_true_eq]
      intro hta
      exact hdisj a hta ha
    rw [h2, h3, h4, List.nil_append]
  have hkeep_perm : (res.filter isJpgFile).Perm (sorted.drop d) := by
    rw [hcomm]
    have h1 : (sorted.filter (fun f => decide (f ∉ sorted.take d))).Perm
        (files.filter (fun f => decide (f ∉ sorted.take d))) := hperm.filter _
    rw [heq] at h1
    exact h1.symm
  refine ⟨?_, ?_, ?_⟩
  · rw [hkeep_perm.length_eq, List.length_drop]
  · intro f hfdir hfnj
    rw [hres, List.mem_filter]
    refine ⟨hfdir, ?_⟩
    simp only [decide_eq_true_eq]
    intro hfdel
    have hj := hdel_jpg f hfdel
    rw [hfnj] at hj
    exact absurd hj (by decide)
  · intro f hfdir hfnres
    have hfdel : f ∈ sorted.take d := by
      by_contra hnd3
      apply hfnres
      rw [hres, List.mem_filter]
      exact ⟨hfdir, by simp [hnd3]⟩
    refine ⟨hdel_jpg f hfdel, ?_⟩
    intro g hgres hgjpg
    have hgkeep : g ∈ res.filter isJpgFile := List.mem_filter.2 ⟨hgres, hgjpg⟩
    have hgdrop : g ∈ sorted.drop d := hkeep_perm.mem_iff.1 hgkeep
    have hle : f.mtime ≤ g.mtime := by
      have hp : List.Pairwise (fun a b : FileEnt => a.mtime ≤ b.mtime)
          (sorted.take d ++ sorted.drop d) := by
        rw [hsplit]
        exact hsort
      exact (List.pairwise_append.1 hp).2.2 f hfdel g hgdrop
    have hne2 : f ≠ g := by
      intro hfg
      exact hdisj f hfdel (hfg ▸ hgdrop)
    have hmtne : f.mtime ≠ g.mtime := by
      intro hmteq
      apply hne2
      have hf_files : f ∈ files := hdel_mem f hfdel
      have hg_files : g ∈ files := hperm.mem_iff.1 (List.drop_subset d sorted hgdrop)
      exact List.inj_on_of_nodup_map hmt hf_files hg_files hmteq
    exact lt_of_le_of_ne hle hmtne

/-- C10: one retention sweep leaves every non-jpg file alone, deletes
nothing when the jpg count is already at most `max_files`, and otherwise
deletes exactly jpg files that are strictly older (by mtime) than every kept
jpg file, so that exactly `max_files` jpg files remain.  Directory entries
are distinct and jpg mtimes pairwise distinct, as in the spec's scenario, so
that "the oldest" is well defined. -/
theorem enforce_fifo_spec (max_files : ℕ) (dir : List FileEnt)
    (hnd : dir.Nodup)
    (hmt : ((dir.filter isJpgFile).map FileEnt.mtime).Nodup) :
    ((dir.filter isJpgFile).length ≤ max_files →
      _enforce_fifo_for_dir max_files dir = dir) ∧
    (max_files < (dir.filter isJpgFile).length →
      ((_enforce_fifo_for_dir max_files dir).filter isJpgFile).length = max_files ∧
      (∀ f ∈ dir, isJpgFile f = false → f ∈ _enforce_fifo_for_dir max_files dir) ∧
      (∀ f ∈ dir, f ∉ _enforce_fifo_for_dir max_files dir →
        isJpgFile f = true ∧
        ∀ g ∈ _enforce_fifo_for_dir max_files dir, isJpgFile g = true →
          f.mtime < g.mtime)) := by
  constructor
  · intro hle
    unfold _enforce_fifo_for_dir
    rw [if_pos hle]
  · intro hgt
    have hnle : ¬ (dir.filter isJpgFile).length ≤ max_files := not_le.2 hgt
    haveI : IsTotal FileEnt (fun a b : FileEnt => a.mtime ≤ b.mtime) :=
      ⟨fun a b => le_total a.mtime b.mtime⟩
    haveI : IsTrans FileEnt (fun a b : FileEnt => a.mtime ≤ b.mtime) :=
      ⟨fun a b c hab hbc => le_trans hab hbc⟩
    have hres : _enforce_fifo_for_dir max_files dir
        = dir.filter (fun f => decide (f ∉
            (List.insertionSort (fun a b : FileEnt => a.mtime ≤ b.mtime)
              (dir.filter isJpgFile)).take
              ((dir.filter isJpgFile).length - max_files))) := by
      unfold _enforce_fifo_for_dir
      rw [if_neg hnle]
    have hperm := List.perm_insertionSort
      (fun a b : FileEnt => a.mtime ≤ b.mtime) (dir.filter isJpgFile)
    have hsort := List.sorted_insertionSort
      (fun a b : FileEnt => a.mtime ≤ b.mtime) (dir.filter isJpgFile)
    have hchar := fifo_delete_characterization dir (dir.filter isJpgFile)
      (List.insertionSort (fun a b : FileEnt => a.mtime ≤ b.mtime)
        (dir.filter isJpgFile))
      (_enforce_fifo_for_dir max_files dir)
      ((dir.filter isJpgFile).length - max_files)
      rfl hnd hmt hperm hsort hres
    obtain ⟨hlen, hp2, hp3⟩ := hchar
    refine ⟨?_, hp2, hp3⟩
    rw [hlen, hperm.length_eq]
    omega

/-- Witness for `enforce_fifo_spec`: eight jpg files, `max_files = 5` — one
sweep keeps exactly 5 jpg files and every deleted file is strictly older
than every kept one (the spec's concrete FIFO scenario). -/
theorem enforce_fifo_spec_witness :
    snapDir8.Nodup ∧
    ((snapDir8.filter isJpgFile).map FileEnt.mtime).Nodup ∧
    5 < (snapDir8.filter isJpgFile).length ∧
    ((_enforce_fifo_for_dir 5 snapDir8).filter isJpgFile).length = 5 ∧
    (∀ f ∈ snapDir8, isJpgFile f = false → f ∈ _enforce_fifo_for_dir 5 snapDir8) ∧
    (∀ f ∈ snapDir8, f ∉ _enforce_fifo_for_dir 5 snapDir8 →
      isJpgFile f = true ∧
      ∀ g ∈ _enforce_fifo_for_dir 5 snapDir8, isJpgFile g = true →
        f.mtime < g.mtime) := by
  have h := (enforce_fifo_spec 5 snapDir8 (by decide) (by decide)).2 (by decide)
  exact ⟨by decide, by decide, by decide, h.1, h.2.1, h.2.2⟩

end ZV
